import Mathlib

set_option autoImplicit false

/-
Shallow embedding of `src/backend/app/services/websocket_client.py`
(class `OpenAlgoWebSocket`).

Modelling conventions:
- Python `str` values are Lean `String`s; numeric prices are `Rat`
  (frames only store and return prices, never compute with them).
- Python dicts keyed by symbol-key strings are association lists
  `List (String × β)` with dict-like find / overwrite-insert / delete.
- A callback is identified by a numeric id plus a flag saying whether
  invoking it raises; the dispatcher records an event per invocation.
- `await ws.send(...)` is modelled by recording the outbound frame in a
  list of `WireMsg`s together with a `sendOk` oracle telling whether the
  send raises (the code catches that exception and returns `False`).
- The read loop / asyncio machinery is not modelled; the dispatcher
  (`_process_message` and the `_handle_*` functions), the subscription
  API, `disconnect`, `connect`, `_try_reconnect` and `_resubscribe_all`
  are modelled as pure state transformers.
-/

namespace OpenAlgoWS

/-- A registered callback: `id` distinguishes callbacks, `raises` says
whether calling it raises an exception. -/
structure Callback where
  id : Nat
  raises : Bool
deriving DecidableEq

/-- An inbound JSON frame, with the dict fields the client reads made
explicit; `extra` stands for any remaining payload fields. -/
structure Frame where
  ftype : Option String
  exchange : Option String
  symbol : Option String
  ltp : Option Rat
  extra : List (String × Rat)
deriving DecidableEq

/-- An outbound wire message as built by `_send_subscribe` /
`_send_unsubscribe`. -/
structure WireMsg where
  action : String
  stype : String
  exchange : String
  symbol : String
deriving DecidableEq

/-! ### Dict operations (association lists with dict semantics) -/

/-- Python `d.get(k)` / `k in d`. -/
def mapFind {β : Type} (m : List (String × β)) (k : String) : Option β :=
  match m with
  | [] => none
  | (k', v) :: rest => if k' = k then some v else mapFind rest k

/-- Python `d[k] = v`: overwrite in place, append if absent. -/
def mapInsert {β : Type} (m : List (String × β)) (k : String) (v : β) :
    List (String × β) :=
  match m with
  | [] => [(k, v)]
  | (k', v') :: rest =>
      if k' = k then (k', v) :: rest else (k', v') :: mapInsert rest k v

/-- Python `del d[k]`. -/
def mapErase {β : Type} (m : List (String × β)) (k : String) :
    List (String × β) :=
  match m with
  | [] => []
  | (k', v') :: rest =>
      if k' = k then mapErase rest k else (k', v') :: mapErase rest k

@[simp] theorem mapFind_nil {β : Type} (k : String) :
    mapFind ([] : List (String × β)) k = none := rfl

@[simp] theorem mapFind_cons {β : Type} (k' : String) (v : β)
    (rest : List (String × β)) (k : String) :
    mapFind ((k', v) :: rest) k = if k' = k then some v else mapFind rest k := rfl

theorem mapFind_mapInsert_self {β : Type} (m : List (String × β))
    (k : String) (v : β) : mapFind (mapInsert m k v) k = some v := by
  induction m with
  | nil => simp [mapInsert]
  | cons p rest ih =>
      obtain ⟨k', v'⟩ := p
      by_cases h : k' = k <;> simp [mapInsert, h, ih]

theorem mapFind_mapInsert_ne {β : Type} (m : List (String × β))
    (k k' : String) (v : β) (h : k ≠ k') :
    mapFind (mapInsert m k v) k' = mapFind m k' := by
  induction m with
  | nil => simp [mapInsert, h]
  | cons p rest ih =>
      obtain ⟨k'', v''⟩ := p
      by_cases h2 : k'' = k
      · subst h2
        simp [mapInsert, h]
      · simp [mapInsert, h2, ih]

theorem mapInsert_mapInsert_self {β : Type} (m : List (String × β))
    (k : String) (v w : β) :
    mapInsert (mapInsert m k v) k w = mapInsert m k w := by
  induction m with
  | nil => simp [mapInsert]
  | cons p rest ih =>
      obtain ⟨k', v'⟩ := p
      by_cases h : k' = k <;> simp [mapInsert, h, ih]

theorem mapErase_mapInsert_self {β : Type} (m : List (String × β))
    (k : String) (v : β) :
    mapErase (mapInsert m k v) k = mapErase m k := by
  induction m with
  | nil => simp [mapInsert, mapErase]
  | cons p rest ih =>
      obtain ⟨k', v'⟩ := p
      by_cases h : k' = k <;> simp [mapInsert, mapErase, h, ih]

theorem mem_mapInsert {β : Type} (m : List (String × β)) (k : String)
    (v : β) (p : String × β) (hp : p ∈ mapInsert m k v) :
    p = (k, v) ∨ p ∈ m := by
  induction m with
  | nil => simpa [mapInsert] using hp
  | cons q rest ih =>
      obtain ⟨k', v'⟩ := q
      by_cases h : k' = k
      · subst h
        rcases (by simpa [mapInsert] using hp : p = (k', v) ∨ p ∈ rest) with h1 | h1
        · exact Or.inl h1
        · exact Or.inr (List.mem_cons_of_mem _ h1)
      · rcases (by simpa [mapInsert, h] using hp : p = (k', v') ∨ p ∈ mapInsert rest k v) with h1 | h1
        · exact Or.inr (by simp [h1])
        · rcases ih h1 with h2 | h2
          · exact Or.inl h2
          · exact Or.inr (List.mem_cons_of_mem _ h2)

theorem mem_mapErase {β : Type} (m : List (String × β)) (k : String)
    (p : String × β) (hp : p ∈ mapErase m k) : p ∈ m := by
  induction m with
  | nil => simp [mapErase] at hp
  | cons q rest ih =>
      obtain ⟨k', v'⟩ := q
      by_cases h : k' = k
      · simp only [mapErase, if_pos h] at hp
        exact List.mem_cons_of_mem _ (ih hp)
      · rcases (by simpa [mapErase, h] using hp : p = (k', v') ∨ p ∈ mapErase rest k) with h1 | h1
        · simp [h1]
        · exact List.mem_cons_of_mem _ (ih h1)

/-! ### Python `key.split(":")` -/

/-- Python `str.split(":")` on the character list of a string. -/
def splitOnColon : List Char → List (List Char)
  | [] => [[]]
  | c :: rest =>
      match splitOnColon rest with
      | [] => [[]]
      | g :: gs => if c = ':' then [] :: g :: gs else (c :: g) :: gs

theorem splitOnColon_ne_nil (cs : List Char) : splitOnColon cs ≠ [] := by
  induction cs with
  | nil => simp [splitOnColon]
  | cons c rest ih =>
      simp only [splitOnColon]
      rcases h : splitOnColon rest with _ | ⟨g, gs⟩
      · simp
      · by_cases hc : c = ':' <;> simp [hc]

theorem splitOnColon_no_colon (cs : List Char) (h : ':' ∉ cs) :
    splitOnColon cs = [cs] := by
  induction cs with
  | nil => rfl
  | cons c rest ih =>
      have hc : c ≠ ':' := fun hh => h (by simp [hh])
      have hr : ':' ∉ rest := fun hh => h (List.mem_cons_of_mem _ hh)
      simp [splitOnColon, ih hr, hc]

theorem splitOnColon_append (e s : List Char) (he : ':' ∉ e) (hs : ':' ∉ s) :
    splitOnColon (e ++ ':' :: s) = [e, s] := by
  induction e with
  | nil => simp [splitOnColon, splitOnColon_no_colon s hs]
  | cons c rest ih =>
      have hc : c ≠ ':' := fun hh => he (by simp [hh])
      have hr : ':' ∉ rest := fun hh => he (List.mem_cons_of_mem _ hh)
      simp [splitOnColon, ih hr, hc]

theorem splitOnColon_singleton (cs g : List Char)
    (h : splitOnColon cs = [g]) : cs = g := by
  induction cs generalizing g with
  | nil =>
      simpa [splitOnColon] using h
  | cons c rest ih =>
      simp only [splitOnColon] at h
      rcases hr : splitOnColon rest with _ | ⟨g', gs'⟩
      · exact absurd hr (splitOnColon_ne_nil rest)
      · rw [hr] at h
        by_cases hc : c = ':'
        · simp [hc] at h
        · simp only [if_neg hc] at h
          injection h with h1 h2
          subst h2
          have h3 : rest = g' := ih g' hr
          rw [h3, h1]

theorem splitOnColon_pair (cs e s : List Char)
    (h : splitOnColon cs = [e, s]) : cs = e ++ ':' :: s := by
  induction cs generalizing e s with
  | nil =>
      simp only [splitOnColon] at h
      injection h with _ h2
      exact absurd h2.symm (List.cons_ne_nil _ _)
  | cons c rest ih =>
      simp only [splitOnColon] at h
      rcases hr : splitOnColon rest with _ | ⟨g', gs'⟩
      · exact absurd hr (splitOnColon_ne_nil rest)
      · rw [hr] at h
        by_cases hc : c = ':'
        · simp only [if_pos hc] at h
          injection h with h1 h2
          injection h2 with h3 h4
          subst h4
          have h5 : rest = g' := splitOnColon_singleton rest g' hr
          rw [← h1, hc, h5, h3]
          rfl
        · simp only [if_neg hc] at h
          injection h with h1 h2
          subst h2
          have h5 : rest = g' ++ ':' :: s := ih g' s hr
          rw [← h1, h5]
          rfl

/-! ### Client state (`OpenAlgoWebSocket.__init__`) -/

/-- The mutable state of an `OpenAlgoWebSocket` instance. `ws` records
whether a transport object is currently held (`self.ws is not None`). -/
structure WSState where
  connected : Bool
  ws : Bool
  running : Bool
  reconnectAttempts : Nat
  maxReconnectAttempts : Nat
  reconnectDelay : Nat
  subsLtp : List (String × List Callback)
  subsQuote : List (String × List Callback)
  subsDepth : List (String × List Callback)
  ltpCache : List (String × Rat)
  quoteCache : List (String × Frame)
  depthCache : List (String × Frame)
deriving DecidableEq

/-- `__init__`: fresh client state. -/
def initState : WSState :=
  { connected := false
    ws := false
    running := false
    reconnectAttempts := 0
    maxReconnectAttempts := 5
    reconnectDelay := 5
    subsLtp := []
    subsQuote := []
    subsDepth := []
    ltpCache := []
    quoteCache := []
    depthCache := [] }

/-- `_get_symbol_key`. -/
def getSymbolKey (exchange symbol : String) : String :=
  exchange ++ ":" ++ symbol

/-- `key.split(":")` followed by unpacking into `exchange, symbol`;
`none` models the `ValueError` raised when the split does not yield
exactly two parts. -/
def splitKey (key : String) : Option (String × String) :=
  match splitOnColon key.data with
  | [e, s] => some (String.mk e, String.mk s)
  | _ => none

/-- The subscribe message built by `_send_subscribe`. -/
def mkSubscribeMsg (stype exchange symbol : String) : WireMsg :=
  { action := "subscribe", stype := stype, exchange := exchange, symbol := symbol }

/-- The unsubscribe message built by `_send_unsubscribe`. -/
def mkUnsubscribeMsg (stype exchange symbol : String) : WireMsg :=
  { action := "unsubscribe", stype := stype, exchange := exchange, symbol := symbol }

/-- `_send_subscribe`: returns `False` without sending when not connected
or no transport is held; otherwise attempts the send (always recorded as
an outbound message) and returns `sendOk` (a raising `ws.send` is caught
and turned into `False`). -/
def sendSubscribe (s : WSState) (sendOk : Bool) (stype exchange symbol : String) :
    Bool × List WireMsg :=
  if s.connected && s.ws then
    (sendOk, [mkSubscribeMsg stype exchange symbol])
  else
    (false, [])

/-- `_send_unsubscribe`. -/
def sendUnsubscribe (s : WSState) (sendOk : Bool) (stype exchange symbol : String) :
    Bool × List WireMsg :=
  if s.connected && s.ws then
    (sendOk, [mkUnsubscribeMsg stype exchange symbol])
  else
    (false, [])

/-- `connect`: no-op when already connected; on success holds a
transport, sets `connected`, zeroes the reconnect counter and sets
`_running`; on failure only `connected = False` is (re)assigned. -/
def connect (s : WSState) (ok : Bool) : WSState × Bool :=
  if s.connected then (s, true)
  else if ok then
    ({ s with ws := true, connected := true, reconnectAttempts := 0,
              running := true }, true)
  else
    ({ s with connected := false }, false)

/-- `disconnect`: stops the read loop, drops the transport, clears
`connected` and resets all three subscription registries; the caches are
not touched. -/
def disconnect (s : WSState) : WSState :=
  { s with running := false
           ws := false
           connected := false
           subsLtp := []
           subsQuote := []
           subsDepth := [] }

/-! ### Public subscription API -/

/-- `subscribe_ltp`: on a fresh key, creates the (empty) entry and — only
if connected — sends a wire subscribe; then appends the callback unless
already present. Always returns `True`. The returned list holds the
outbound messages produced by the call. -/
def subscribe_ltp (s : WSState) (sendOk : Bool) (exchange symbol : String)
    (callback : Callback) : WSState × Bool × List WireMsg :=
  let key := getSymbolKey exchange symbol
  let fresh := (mapFind s.subsLtp key).isNone
  let s1 := if fresh then { s with subsLtp := mapInsert s.subsLtp key [] } else s
  let out := if fresh && s1.connected then (sendSubscribe s1 sendOk "ltp" exchange symbol).2 else []
  let cur := (mapFind s1.subsLtp key).getD []
  let s2 :=
    if callback ∈ cur then s1
    else { s1 with subsLtp := mapInsert s1.subsLtp key (cur ++ [callback]) }
  (s2, true, out)

/-- `unsubscribe_ltp`: no entry → trivial success; with a callback,
removes that callback if present; with `none`, clears the list; if the
list is then empty, deletes the key and — only if connected — sends a
wire unsubscribe. Always returns `True`. -/
def unsubscribe_ltp (s : WSState) (sendOk : Bool) (exchange symbol : String)
    (callback : Option Callback) : WSState × Bool × List WireMsg :=
  let key := getSymbolKey exchange symbol
  match mapFind s.subsLtp key with
  | none => (s, true, [])
  | some cur =>
      let cur1 :=
        match callback with
        | some cb => if cb ∈ cur then cur.erase cb else cur
        | none => []
      let s1 := { s with subsLtp := mapInsert s.subsLtp key cur1 }
      if cur1.isEmpty then
        let s2 := { s1 with subsLtp := mapErase s1.subsLtp key }
        (s2, true,
          if s2.connected then (sendUnsubscribe s2 sendOk "ltp" exchange symbol).2 else [])
      else
        (s1, true, [])

/-- `subscribe_quote` (same shape as `subscribe_ltp`). -/
def subscribe_quote (s : WSState) (sendOk : Bool) (exchange symbol : String)
    (callback : Callback) : WSState × Bool × List WireMsg :=
  let key := getSymbolKey exchange symbol
  let fresh := (mapFind s.subsQuote key).isNone
  let s1 := if fresh then { s with subsQuote := mapInsert s.subsQuote key [] } else s
  let out := if fresh && s1.connected then (sendSubscribe s1 sendOk "quote" exchange symbol).2 else []
  let cur := (mapFind s1.subsQuote key).getD []
  let s2 :=
    if callback ∈ cur then s1
    else { s1 with subsQuote := mapInsert s1.subsQuote key (cur ++ [callback]) }
  (s2, true, out)

/-- `unsubscribe_quote` (same shape as `unsubscribe_ltp`). -/
def unsubscribe_quote (s : WSState) (sendOk : Bool) (exchange symbol : String)
    (callback : Option Callback) : WSState × Bool × List WireMsg :=
  let key := getSymbolKey exchange symbol
  match mapFind s.subsQuote key with
  | none => (s, true, [])
  | some cur =>
      let cur1 :=
        match callback with
        | some cb => if cb ∈ cur then cur.erase cb else cur
        | none => []
      let s1 := { s with subsQuote := mapInsert s.subsQuote key cur1 }
      if cur1.isEmpty then
        let s2 := { s1 with subsQuote := mapErase s1.subsQuote key }
        (s2, true,
          if s2.connected then (sendUnsubscribe s2 sendOk "quote" exchange symbol).2 else [])
      else
        (s1, true, [])

/-- `subscribe_depth` (same shape as `subscribe_ltp`). -/
def subscribe_depth (s : WSState) (sendOk : Bool) (exchange symbol : String)
    (callback : Callback) : WSState × Bool × List WireMsg :=
  let key := getSymbolKey exchange symbol
  let fresh := (mapFind s.subsDepth key).isNone
  let s1 := if fresh then { s with subsDepth := mapInsert s.subsDepth key [] } else s
  let out := if fresh && s1.connected then (sendSubscribe s1 sendOk "depth" exchange symbol).2 else []
  let cur := (mapFind s1.subsDepth key).getD []
  let s2 :=
    if callback ∈ cur then s1
    else { s1 with subsDepth := mapInsert s1.subsDepth key (cur ++ [callback]) }
  (s2, true, out)

/-- `unsubscribe_depth` (same shape as `unsubscribe_ltp`). -/
def unsubscribe_depth (s : WSState) (sendOk : Bool) (exchange symbol : String)
    (callback : Option Callback) : WSState × Bool × List WireMsg :=
  let key := getSymbolKey exchange symbol
  match mapFind s.subsDepth key with
  | none => (s, true, [])
  | some cur =>
      let cur1 :=
        match callback with
        | some cb => if cb ∈ cur then cur.erase cb else cur
        | none => []
      let s1 := { s with subsDepth := mapInsert s.subsDepth key cur1 }
      if cur1.isEmpty then
        let s2 := { s1 with subsDepth := mapErase s1.subsDepth key }
        (s2, true,
          if s2.connected then (sendUnsubscribe s2 sendOk "depth" exchange symbol).2 else [])
      else
        (s1, true, [])

/-- `get_ltp`: cached LTP lookup. -/
def get_ltp (s : WSState) (exchange symbol : String) : Option Rat :=
  mapFind s.ltpCache (getSymbolKey exchange symbol)

/-- `get_quote`: cached quote lookup. -/
def get_quote (s : WSState) (exchange symbol : String) : Option Frame :=
  mapFind s.quoteCache (getSymbolKey exchange symbol)

/-- `get_depth`: cached depth lookup. -/
def get_depth (s : WSState) (exchange symbol : String) : Option Frame :=
  mapFind s.depthCache (getSymbolKey exchange symbol)

/-! ### Message dispatcher -/

/-- One recorded callback invocation; `ok = false` means the callback
raised and the error was caught and logged by the handler. -/
inductive CbEvent where
  | ltpCall (cbId : Nat) (exchange symbol : String) (price : Rat)
      (frame : Frame) (ok : Bool)
  | quoteCall (cbId : Nat) (exchange symbol : String) (frame : Frame) (ok : Bool)
  | depthCall (cbId : Nat) (exchange symbol : String) (frame : Frame) (ok : Bool)
deriving DecidableEq

/-- Invoking a callback either returns or raises, per its `raises` flag. -/
def invokeResult (cb : Callback) : Except String Unit :=
  if cb.raises then Except.error "callback error" else Except.ok ()

/-- The `try/except` around one callback invocation: the handler records
whether the call completed and carries on either way. -/
def invokeCaught (cb : Callback) : Bool :=
  match invokeResult cb with
  | Except.ok _ => true
  | Except.error _ => false

/-- `_handle_ltp`: update the LTP cache, then invoke every registered
(LTP, key) callback in order, each invocation fault-isolated. -/
def handleLtp (s : WSState) (data : Frame) : WSState × List CbEvent :=
  let exchange := data.exchange.getD ""
  let symbol := data.symbol.getD ""
  let ltp := data.ltp.getD 0
  let key := getSymbolKey exchange symbol
  let s1 := { s with ltpCache := mapInsert s.ltpCache key ltp }
  let events :=
    match mapFind s1.subsLtp key with
    | none => []
    | some cbs =>
        cbs.map (fun cb =>
          CbEvent.ltpCall cb.id exchange symbol ltp data (invokeCaught cb))
  (s1, events)

/-- `_handle_quote`: store the whole frame in the quote cache, update the
LTP cache when the frame carries an `ltp` field, then invoke every
(QUOTE, key) callback, each invocation fault-isolated. -/
def handleQuote (s : WSState) (data : Frame) : WSState × List CbEvent :=
  let exchange := data.exchange.getD ""
  let symbol := data.symbol.getD ""
  let key := getSymbolKey exchange symbol
  let s1 := { s with quoteCache := mapInsert s.quoteCache key data }
  let s2 :=
    match data.ltp with
    | some v => { s1 with ltpCache := mapInsert s1.ltpCache key v }
    | none => s1
  let events :=
    match mapFind s2.subsQuote key with
    | none => []
    | some cbs =>
        cbs.map (fun cb =>
          CbEvent.quoteCall cb.id exchange symbol data (invokeCaught cb))
  (s2, events)

/-- `_handle_depth`: store the whole frame in the depth cache, then
invoke every (DEPTH, key) callback, each invocation fault-isolated. -/
def handleDepth (s : WSState) (data : Frame) : WSState × List CbEvent :=
  let exchange := data.exchange.getD ""
  let symbol := data.symbol.getD ""
  let key := getSymbolKey exchange symbol
  let s1 := { s with depthCache := mapInsert s.depthCache key data }
  let events :=
    match mapFind s1.subsDepth key with
    | none => []
    | some cbs =>
        cbs.map (fun cb =>
          CbEvent.depthCall cb.id exchange symbol data (invokeCaught cb))
  (s1, events)

/-- `_process_message`: route a decoded frame by its `type` field;
`error` / `subscribed` / `unsubscribed` and unrecognized kinds are
logged only. -/
def processMessage (s : WSState) (data : Frame) : WSState × List CbEvent :=
  let msgType := data.ftype.getD ""
  if msgType = "ltp" then handleLtp s data
  else if msgType = "quote" then handleQuote s data
  else if msgType = "depth" then handleDepth s data
  else (s, [])

/-! ### Resubscription and reconnection -/

/-- One kind's loop body inside `_resubscribe_all`: for each held key,
unpack `key.split(":")` into `exchange, symbol` and send a subscribe.
The returned option is the key whose unpacking raised `ValueError`
(wrong number of parts), aborting the iteration there; messages sent
before the raise are kept. -/
def resubscribeKeys (s : WSState) (sendOk : Bool) (stype : String) :
    List String → List WireMsg × Option String
  | [] => ([], none)
  | key :: rest =>
      match splitKey key with
      | none => ([], some key)
      | some (exchange, symbol) =>
          let sent := (sendSubscribe s sendOk stype exchange symbol).2
          let (msgs, err) := resubscribeKeys s sendOk stype rest
          (sent ++ msgs, err)

/-- `_resubscribe_all`: iterate the three kinds in dict order; a raise
in an earlier kind aborts the later ones. -/
def resubscribeAll (s : WSState) (sendOk : Bool) : List WireMsg × Option String :=
  let (m1, e1) := resubscribeKeys s sendOk "ltp" (s.subsLtp.map Prod.fst)
  match e1 with
  | some k => (m1, some k)
  | none =>
      let (m2, e2) := resubscribeKeys s sendOk "quote" (s.subsQuote.map Prod.fst)
      match e2 with
      | some k => (m1 ++ m2, some k)
      | none =>
          let (m3, e3) := resubscribeKeys s sendOk "depth" (s.subsDepth.map Prod.fst)
          (m1 ++ m2 ++ m3, e3)

/-- Events observed while `_try_reconnect` runs. -/
inductive ReconnectEvent where
  | sleep (d : Nat)
  | connectAttempt (n : Nat) (ok : Bool)
  | gaveUp
deriving DecidableEq

/-- Loop body of `_try_reconnect`, with explicit fuel (the loop makes at
most `max_reconnect_attempts - reconnect_attempts` iterations, so the
fuel chosen by `tryReconnect` is never exhausted). `oracle n` tells
whether the `n`-th connect attempt succeeds. The final component is the
key on which `_resubscribe_all` raised, if any. -/
def tryReconnectAux (oracle : Nat → Bool) (sendOk : Bool) :
    Nat → WSState → WSState × List ReconnectEvent × List WireMsg × Option String
  | 0, s => (s, [], [], none)
  | fuel + 1, s =>
      if s.reconnectAttempts < s.maxReconnectAttempts && s.running then
        let s1 := { s with reconnectAttempts := s.reconnectAttempts + 1 }
        let (s2, ok) := connect s1 (oracle s1.reconnectAttempts)
        if ok then
          let (msgs, err) := resubscribeAll s2 sendOk
          (s2, [ReconnectEvent.sleep s1.reconnectDelay,
                ReconnectEvent.connectAttempt s1.reconnectAttempts true],
           msgs, err)
        else
          let (sF, evs, msgs, err) := tryReconnectAux oracle sendOk fuel s2
          (sF, ReconnectEvent.sleep s1.reconnectDelay ::
               ReconnectEvent.connectAttempt s1.reconnectAttempts false :: evs,
           msgs, err)
      else
        (s, [ReconnectEvent.gaveUp], [], none)

/-- `_try_reconnect`. -/
def tryReconnect (s : WSState) (oracle : Nat → Bool) (sendOk : Bool) :
    WSState × List ReconnectEvent × List WireMsg × Option String :=
  tryReconnectAux oracle sendOk (s.maxReconnectAttempts + 1) s

/-! ### Operation alphabet for reachability (claim C8) -/

/-- One atomic public operation on the client. -/
inductive Op where
  | subLtp (exchange symbol : String) (cb : Callback) (sendOk : Bool)
  | subQuote (exchange symbol : String) (cb : Callback) (sendOk : Bool)
  | subDepth (exchange symbol : String) (cb : Callback) (sendOk : Bool)
  | unsubLtp (exchange symbol : String) (cb : Option Callback) (sendOk : Bool)
  | unsubQuote (exchange symbol : String) (cb : Option Callback) (sendOk : Bool)
  | unsubDepth (exchange symbol : String) (cb : Option Callback) (sendOk : Bool)
  | disc
  | frameOp (f : Frame)

/-- State effect of one operation. -/
def step (s : WSState) (op : Op) : WSState :=
  match op with
  | Op.subLtp e sym cb ok => (subscribe_ltp s ok e sym cb).1
  | Op.subQuote e sym cb ok => (subscribe_quote s ok e sym cb).1
  | Op.subDepth e sym cb ok => (subscribe_depth s ok e sym cb).1
  | Op.unsubLtp e sym cb ok => (unsubscribe_ltp s ok e sym cb).1
  | Op.unsubQuote e sym cb ok => (unsubscribe_quote s ok e sym cb).1
  | Op.unsubDepth e sym cb ok => (unsubscribe_depth s ok e sym cb).1
  | Op.disc => disconnect s
  | Op.frameOp f => (processMessage s f).1

/-- A registry mapping is well-formed when every held key has at least
one callback. -/
def regOk (m : List (String × List Callback)) : Prop :=
  ∀ p ∈ m, p.2 ≠ []

/-- All three registries are well-formed. -/
def stateRegOk (s : WSState) : Prop :=
  regOk s.subsLtp ∧ regOk s.subsQuote ∧ regOk s.subsDepth

theorem mapFind_mapErase_self {β : Type} (m : List (String × β)) (k : String) :
    mapFind (mapErase m k) k = none := by
  induction m with
  | nil => simp [mapErase]
  | cons p rest ih =>
      obtain ⟨k', v'⟩ := p
      by_cases h : k' = k <;> simp [mapErase, h, ih]

/-! ### Claims -/

/-- Claim C10: `disconnect()` resets the subscription registries of all
three kinds to empty but leaves the ltp, quote and depth caches
unmodified: every cached value reads the same through `get_ltp` /
`get_quote` / `get_depth` after `disconnect()` as immediately before. -/
theorem claim_C10 (s : WSState) (exchange symbol : String) :
    (disconnect s).subsLtp = [] ∧ (disconnect s).subsQuote = [] ∧
    (disconnect s).subsDepth = [] ∧
    get_ltp (disconnect s) exchange symbol = get_ltp s exchange symbol ∧
    get_quote (disconnect s) exchange symbol = get_quote s exchange symbol ∧
    get_depth (disconnect s) exchange symbol = get_depth s exchange symbol :=
  ⟨rfl, rfl, rfl, rfl, rfl, rfl⟩

/-- Claim C9: if the wire send performed during a first-subscriber
subscribe fails (`sendOk = false`), the subscribe call still returns
success, the send was attempted, and the local registry is still
updated: the key exists and the callback is registered for it. -/
theorem claim_C9 (s : WSState) (exchange symbol : String) (cb : Callback)
    (hfresh : mapFind s.subsLtp (getSymbolKey exchange symbol) = none)
    (hconn : s.connected = true) (hws : s.ws = true) :
    (subscribe_ltp s false exchange symbol cb).2.1 = true ∧
    (subscribe_ltp s false exchange symbol cb).2.2 =
      [mkSubscribeMsg "ltp" exchange symbol] ∧
    mapFind (subscribe_ltp s false exchange symbol cb).1.subsLtp
      (getSymbolKey exchange symbol) = some [cb] := by
  refine ⟨rfl, ?_, ?_⟩ <;>
    simp [subscribe_ltp, hfresh, sendSubscribe, hconn, hws,
      mapFind_mapInsert_self, mapInsert_mapInsert_self]


/-- A connected idle client, as after a successful `connect()`. -/
def connState : WSState :=
  { initState with connected := true, ws := true, running := true }

/-- A sample callback that does not raise. -/
def cbA : Callback := { id := 0, raises := false }

/-- A sample callback that raises when invoked. -/
def cbBad : Callback := { id := 1, raises := true }

theorem claim_C9_witness :
    mapFind connState.subsLtp (getSymbolKey "NSE" "INFY") = none ∧
    connState.connected = true ∧ connState.ws = true ∧
    (subscribe_ltp connState false "NSE" "INFY" cbA).2.1 = true ∧
    mapFind (subscribe_ltp connState false "NSE" "INFY" cbA).1.subsLtp
      (getSymbolKey "NSE" "INFY") = some [cbA] := by
  refine ⟨by decide, by decide, by decide, ?_, ?_⟩
  · exact (claim_C9 connState "NSE" "INFY" cbA (by decide) (by decide) (by decide)).1
  · exact (claim_C9 connState "NSE" "INFY" cbA (by decide) (by decide) (by decide)).2.2

/-- Claim C5: after the dispatcher processes an ltp frame with exchange
`E`, symbol `S` and price `P`, `get_ltp E S` returns `P` (the payload of
the frame just dispatched, overwriting any older value), and every
callback registered for (LTP, `E:S`) is invoked exactly once with
`(E, S, P, frame)`, in registration order. -/
theorem claim_C5 (s : WSState) (f : Frame) (exchange symbol : String)
    (price : Rat)
    (hty : f.ftype = some "ltp") (hex : f.exchange = some exchange)
    (hsy : f.symbol = some symbol) (hpr : f.ltp = some price) :
    get_ltp (processMessage s f).1 exchange symbol = some price ∧
    (processMessage s f).2 =
      ((mapFind s.subsLtp (getSymbolKey exchange symbol)).getD []).map
        (fun cb => CbEvent.ltpCall cb.id exchange symbol price f (invokeCaught cb)) := by
  constructor
  · simp [processMessage, hty, handleLtp, hex, hsy, hpr, get_ltp,
      mapFind_mapInsert_self]
  · simp only [processMessage, hty, handleLtp, hex, hsy, hpr]
    cases hm : mapFind s.subsLtp (getSymbolKey exchange symbol) <;>
      simp [hm, Option.getD]

/-- The spec's scenario frame
`{"type":"ltp","exchange":"NSE","symbol":"INFY","ltp":1500.5}`. -/
def ltpFrame : Frame :=
  { ftype := some "ltp", exchange := some "NSE", symbol := some "INFY",
    ltp := some 1500.5, extra := [] }

/-- Connected client with `cbA` subscribed for (LTP, NSE:INFY). -/
def subState : WSState := (subscribe_ltp connState true "NSE" "INFY" cbA).1

theorem claim_C5_witness :
    ltpFrame.ftype = some "ltp" ∧ ltpFrame.exchange = some "NSE" ∧
    ltpFrame.symbol = some "INFY" ∧ ltpFrame.ltp = some 1500.5 ∧
    get_ltp (processMessage subState ltpFrame).1 "NSE" "INFY" = some 1500.5 ∧
    (processMessage subState ltpFrame).2 =
      [CbEvent.ltpCall 0 "NSE" "INFY" 1500.5 ltpFrame true] := by
  have h := claim_C5 subState ltpFrame "NSE" "INFY" 1500.5 rfl rfl rfl rfl
  exact ⟨rfl, rfl, rfl, rfl, h.1, h.2.trans rfl⟩

/-- Claim C6: with callbacks `c1`, `c2` registered in that order for the
same (QUOTE, key) and `c1` raising on invocation, the error is caught
and `c2` is still invoked with the same frame; the dispatcher returns
normally (it is a total function into events, no error propagates). -/
theorem claim_C6 (s : WSState) (f : Frame) (exchange symbol : String)
    (c1 c2 : Callback)
    (hty : f.ftype = some "quote") (hex : f.exchange = some exchange)
    (hsy : f.symbol = some symbol) (hr1 : c1.raises = true)
    (hsubs : mapFind s.subsQuote (getSymbolKey exchange symbol) = some [c1, c2]) :
    invokeResult c1 = Except.error "callback error" ∧
    (processMessage s f).2 =
      [CbEvent.quoteCall c1.id exchange symbol f false,
       CbEvent.quoteCall c2.id exchange symbol f (invokeCaught c2)] := by
  constructor
  · simp [invokeResult, hr1]
  · cases hl : f.ltp <;>
      simp [processMessage, hty, handleQuote, hex, hsy, hl, hsubs,
        invokeCaught, invokeResult, hr1]

/-- A quote frame for NSE:INFY that carries an `ltp` field. -/
def quoteFrame : Frame :=
  { ftype := some "quote", exchange := some "NSE", symbol := some "INFY",
    ltp := some 1500.5, extra := [("volume", 100)] }

/-- Connected client with `cbBad` then `cbA` subscribed for
(QUOTE, NSE:INFY), in that order. -/
def qState : WSState :=
  (subscribe_quote (subscribe_quote connState true "NSE" "INFY" cbBad).1
    true "NSE" "INFY" cbA).1

theorem claim_C6_witness :
    cbBad.raises = true ∧
    mapFind qState.subsQuote (getSymbolKey "NSE" "INFY") = some [cbBad, cbA] ∧
    (processMessage qState quoteFrame).2 =
      [CbEvent.quoteCall 1 "NSE" "INFY" quoteFrame false,
       CbEvent.quoteCall 0 "NSE" "INFY" quoteFrame true] := by
  have h := claim_C6 qState quoteFrame "NSE" "INFY" cbBad cbA rfl rfl rfl
    (by decide) (by decide)
  exact ⟨rfl, by decide, h.2.trans rfl⟩

/-- Claim C7: processing a quote frame for key X stores the full payload
in the quote cache for X; exactly when the payload carries an `ltp`
field it also overwrites the LTP cache entry for X with that price; it
invokes every (QUOTE, X) callback with (exchange, symbol, payload) and
never invokes any LTP-kind callback. -/
theorem claim_C7 (s : WSState) (f : Frame) (exchange symbol : String)
    (hty : f.ftype = some "quote") (hex : f.exchange = some exchange)
    (hsy : f.symbol = some symbol) :
    mapFind (processMessage s f).1.quoteCache (getSymbolKey exchange symbol) =
      some f ∧
    (∀ price, f.ltp = some price →
       mapFind (processMessage s f).1.ltpCache (getSymbolKey exchange symbol) =
         some price) ∧
    (f.ltp = none → (processMessage s f).1.ltpCache = s.ltpCache) ∧
    (processMessage s f).2 =
      ((mapFind s.subsQuote (getSymbolKey exchange symbol)).getD []).map
        (fun cb => CbEvent.quoteCall cb.id exchange symbol f (invokeCaught cb)) ∧
    (∀ i e2 s2 p fr ok, CbEvent.ltpCall i e2 s2 p fr ok ∉ (processMessage s f).2) := by
  refine ⟨?_, ?_, ?_, ?_, ?_⟩
  · cases hl : f.ltp <;>
      simp [processMessage, hty, handleQuote, hex, hsy, hl,
        mapFind_mapInsert_self]
  · intro price hl
    simp [processMessage, hty, handleQuote, hex, hsy, hl,
      mapFind_mapInsert_self]
  · intro hl
    simp [processMessage, hty, handleQuote, hex, hsy, hl]
  · cases hl : f.ltp <;>
      cases hm : mapFind s.subsQuote (getSymbolKey exchange symbol) <;>
        simp [processMessage, hty, handleQuote, hex, hsy, hl, hm]
  · intro i e2 s2 p fr ok
    cases hl : f.ltp <;>
      cases hm : mapFind s.subsQuote (getSymbolKey exchange symbol) <;>
        simp [processMessage, hty, handleQuote, hex, hsy, hl, hm]

theorem claim_C7_witness :
    quoteFrame.ftype = some "quote" ∧ quoteFrame.ltp = some 1500.5 ∧
    mapFind (processMessage qState quoteFrame).1.quoteCache
      (getSymbolKey "NSE" "INFY") = some quoteFrame ∧
    mapFind (processMessage qState quoteFrame).1.ltpCache
      (getSymbolKey "NSE" "INFY") = some 1500.5 ∧
    CbEvent.ltpCall 0 "NSE" "INFY" 1500.5 quoteFrame true ∉
      (processMessage qState quoteFrame).2 := by
  have h := claim_C7 qState quoteFrame "NSE" "INFY" rfl rfl rfl
  exact ⟨rfl, rfl, h.1, h.2.1 1500.5 rfl,
    h.2.2.2.2 0 "NSE" "INFY" 1500.5 quoteFrame true⟩

/-- Claim C4: for every kind and every key with at least one registered
callback, unsubscribing with no callback argument removes all callbacks
for the key and removes the key from the live-key set, and — exactly
when the connection is Connected — one wire unsubscribe frame is sent
for it; unsubscribing a key with no entry returns success and changes
nothing. (`hwsc` records that a connected client holds a transport
object, true in every state the client reaches.) -/
theorem claim_C4 (s : WSState) (sendOk : Bool) (exchange symbol : String)
    (hwsc : s.connected = true → s.ws = true) :
    ((∀ cur, mapFind s.subsLtp (getSymbolKey exchange symbol) = some cur →
       cur ≠ [] →
       (unsubscribe_ltp s sendOk exchange symbol none).2.1 = true ∧
       mapFind (unsubscribe_ltp s sendOk exchange symbol none).1.subsLtp
         (getSymbolKey exchange symbol) = none ∧
       (unsubscribe_ltp s sendOk exchange symbol none).2.2 =
         (if s.connected then [mkUnsubscribeMsg "ltp" exchange symbol] else [])) ∧
     (mapFind s.subsLtp (getSymbolKey exchange symbol) = none →
       unsubscribe_ltp s sendOk exchange symbol none = (s, true, []))) ∧
    ((∀ cur, mapFind s.subsQuote (getSymbolKey exchange symbol) = some cur →
       cur ≠ [] →
       (unsubscribe_quote s sendOk exchange symbol none).2.1 = true ∧
       mapFind (unsubscribe_quote s sendOk exchange symbol none).1.subsQuote
         (getSymbolKey exchange symbol) = none ∧
       (unsubscribe_quote s sendOk exchange symbol none).2.2 =
         (if s.connected then [mkUnsubscribeMsg "quote" exchange symbol] else [])) ∧
     (mapFind s.subsQuote (getSymbolKey exchange symbol) = none →
       unsubscribe_quote s sendOk exchange symbol none = (s, true, []))) ∧
    ((∀ cur, mapFind s.subsDepth (getSymbolKey exchange symbol) = some cur →
       cur ≠ [] →
       (unsubscribe_depth s sendOk exchange symbol none).2.1 = true ∧
       mapFind (unsubscribe_depth s sendOk exchange symbol none).1.subsDepth
         (getSymbolKey exchange symbol) = none ∧
       (unsubscribe_depth s sendOk exchange symbol none).2.2 =
         (if s.connected then [mkUnsubscribeMsg "depth" exchange symbol] else [])) ∧
     (mapFind s.subsDepth (getSymbolKey exchange symbol) = none →
       unsubscribe_depth s sendOk exchange symbol none = (s, true, []))) := by
  refine ⟨⟨?_, ?_⟩, ⟨?_, ?_⟩, ⟨?_, ?_⟩⟩
  · intro cur hcur _
    refine ⟨?_, ?_, ?_⟩
    · simp [unsubscribe_ltp, hcur]
    · simp [unsubscribe_ltp, hcur, mapFind_mapErase_self]
    · by_cases hc : s.connected
      · have hw := hwsc hc
        simp [unsubscribe_ltp, hcur, hc, hw, sendUnsubscribe]
      · simp [unsubscribe_ltp, hcur, hc]
  · intro hnone
    simp [unsubscribe_ltp, hnone]
  · intro cur hcur _
    refine ⟨?_, ?_, ?_⟩
    · simp [unsubscribe_quote, hcur]
    · simp [unsubscribe_quote, hcur, mapFind_mapErase_self]
    · by_cases hc : s.connected
      · have hw := hwsc hc
        simp [unsubscribe_quote, hcur, hc, hw, sendUnsubscribe]
      · simp [unsubscribe_quote, hcur, hc]
  · intro hnone
    simp [unsubscribe_quote, hnone]
  · intro cur hcur _
    refine ⟨?_, ?_, ?_⟩
    · simp [unsubscribe_depth, hcur]
    · simp [unsubscribe_depth, hcur, mapFind_mapErase_self]
    · by_cases hc : s.connected
      · have hw := hwsc hc
        simp [unsubscribe_depth, hcur, hc, hw, sendUnsubscribe]
      · simp [unsubscribe_depth, hcur, hc]
  · intro hnone
    simp [unsubscribe_depth, hnone]

/-- Connected client with `cbA` subscribed for (DEPTH, NSE:INFY). -/
def dState : WSState := (subscribe_depth connState true "NSE" "INFY" cbA).1

theorem claim_C4_witness :
    mapFind subState.subsLtp (getSymbolKey "NSE" "INFY") = some [cbA] ∧
    subState.connected = true ∧
    (unsubscribe_ltp subState true "NSE" "INFY" none).2.1 = true ∧
    mapFind (unsubscribe_ltp subState true "NSE" "INFY" none).1.subsLtp
      (getSymbolKey "NSE" "INFY") = none ∧
    (unsubscribe_ltp subState true "NSE" "INFY" none).2.2 =
      [mkUnsubscribeMsg "ltp" "NSE" "INFY"] ∧
    unsubscribe_ltp connState true "NSE" "AAPL" none = (connState, true, []) ∧
    mapFind qState.subsQuote (getSymbolKey "NSE" "INFY") = some [cbBad, cbA] ∧
    (unsubscribe_quote qState true "NSE" "INFY" none).2.1 = true ∧
    mapFind (unsubscribe_quote qState true "NSE" "INFY" none).1.subsQuote
      (getSymbolKey "NSE" "INFY") = none ∧
    (unsubscribe_quote qState true "NSE" "INFY" none).2.2 =
      [mkUnsubscribeMsg "quote" "NSE" "INFY"] ∧
    unsubscribe_quote connState true "NSE" "AAPL" none = (connState, true, []) ∧
    mapFind dState.subsDepth (getSymbolKey "NSE" "INFY") = some [cbA] ∧
    (unsubscribe_depth dState true "NSE" "INFY" none).2.1 = true ∧
    mapFind (unsubscribe_depth dState true "NSE" "INFY" none).1.subsDepth
      (getSymbolKey "NSE" "INFY") = none ∧
    (unsubscribe_depth dState true "NSE" "INFY" none).2.2 =
      [mkUnsubscribeMsg "depth" "NSE" "INFY"] ∧
    unsubscribe_depth connState true "NSE" "AAPL" none = (connState, true, []) := by
  have h := claim_C4 subState true "NSE" "INFY" (fun _ => by decide)
  have h1 := h.1.1 [cbA] (by decide) (by decide)
  have hn := claim_C4 connState true "NSE" "AAPL" (fun _ => by decide)
  have hq := claim_C4 qState true "NSE" "INFY" (fun _ => by decide)
  have hq1 := hq.2.1.1 [cbBad, cbA] (by decide) (by decide)
  have hd := claim_C4 dState true "NSE" "INFY" (fun _ => by decide)
  have hd1 := hd.2.2.1 [cbA] (by decide) (by decide)
  exact ⟨by decide, by decide, h1.1, h1.2.1, h1.2.2.trans (by decide),
    hn.1.2 (by decide),
    by decide, hq1.1, hq1.2.1, hq1.2.2.trans (by decide),
    hn.2.1.2 (by decide),
    by decide, hd1.1, hd1.2.1, hd1.2.2.trans (by decide),
    hn.2.2.2 (by decide)⟩

/-- `subscribe_ltp` is the identity when the callback is already
registered for the key: it neither touches state nor sends anything. -/
theorem subscribe_ltp_mem (s : WSState) (sendOk : Bool)
    (exchange symbol : String) (cb : Callback) (l : List Callback)
    (hfind : mapFind s.subsLtp (getSymbolKey exchange symbol) = some l)
    (hmem : cb ∈ l) :
    subscribe_ltp s sendOk exchange symbol cb = (s, true, []) := by
  simp [subscribe_ltp, hfind, hmem]

/-- After `subscribe_ltp`, the key maps to a list holding `cb` exactly
once (given no prior duplicate registration). -/
theorem subscribe_ltp_once (s : WSState) (sendOk : Bool)
    (exchange symbol : String) (cb : Callback)
    (hdup : ∀ l, mapFind s.subsLtp (getSymbolKey exchange symbol) = some l →
      l.count cb ≤ 1) :
    ∃ l2, mapFind (subscribe_ltp s sendOk exchange symbol cb).1.subsLtp
        (getSymbolKey exchange symbol) = some l2 ∧
      l2.count cb = 1 ∧ cb ∈ l2 := by
  rcases hm : mapFind s.subsLtp (getSymbolKey exchange symbol) with _ | l
  · refine ⟨[cb], ?_, by simp, by simp⟩
    simp [subscribe_ltp, hm, mapFind_mapInsert_self, mapInsert_mapInsert_self]
  · by_cases hmem : cb ∈ l
    · refine ⟨l, ?_, ?_, hmem⟩
      · rw [subscribe_ltp_mem s sendOk exchange symbol cb l hm hmem]
        exact hm
      · exact Nat.le_antisymm (hdup l hm) (List.count_pos_iff.mpr hmem)
    · refine ⟨l ++ [cb], ?_, ?_, by simp⟩
      · simp [subscribe_ltp, hm, hmem, mapFind_mapInsert_self]
      · simp [List.count_append, List.count_eq_zero.mpr hmem]

/-- `subscribe_quote` analogue of `subscribe_ltp_mem`. -/
theorem subscribe_quote_mem (s : WSState) (sendOk : Bool)
    (exchange symbol : String) (cb : Callback) (l : List Callback)
    (hfind : mapFind s.subsQuote (getSymbolKey exchange symbol) = some l)
    (hmem : cb ∈ l) :
    subscribe_quote s sendOk exchange symbol cb = (s, true, []) := by
  simp [subscribe_quote, hfind, hmem]

/-- `subscribe_quote` analogue of `subscribe_ltp_once`. -/
theorem subscribe_quote_once (s : WSState) (sendOk : Bool)
    (exchange symbol : String) (cb : Callback)
    (hdup : ∀ l, mapFind s.subsQuote (getSymbolKey exchange symbol) = some l →
      l.count cb ≤ 1) :
    ∃ l2, mapFind (subscribe_quote s sendOk exchange symbol cb).1.subsQuote
        (getSymbolKey exchange symbol) = some l2 ∧
      l2.count cb = 1 ∧ cb ∈ l2 := by
  rcases hm : mapFind s.subsQuote (getSymbolKey exchange symbol) with _ | l
  · refine ⟨[cb], ?_, by simp, by simp⟩
    simp [subscribe_quote, hm, mapFind_mapInsert_self, mapInsert_mapInsert_self]
  · by_cases hmem : cb ∈ l
    · refine ⟨l, ?_, ?_, hmem⟩
      · rw [subscribe_quote_mem s sendOk exchange symbol cb l hm hmem]
        exact hm
      · exact Nat.le_antisymm (hdup l hm) (List.count_pos_iff.mpr hmem)
    · refine ⟨l ++ [cb], ?_, ?_, by simp⟩
      · simp [subscribe_quote, hm, hmem, mapFind_mapInsert_self]
      · simp [List.count_append, List.count_eq_zero.mpr hmem]

/-- `subscribe_depth` analogue of `subscribe_ltp_mem`. -/
theorem subscribe_depth_mem (s : WSState) (sendOk : Bool)
    (exchange symbol : String) (cb : Callback) (l : List Callback)
    (hfind : mapFind s.subsDepth (getSymbolKey exchange symbol) = some l)
    (hmem : cb ∈ l) :
    subscribe_depth s sendOk exchange symbol cb = (s, true, []) := by
  simp [subscribe_depth, hfind, hmem]

/-- `subscribe_depth` analogue of `subscribe_ltp_once`. -/
theorem subscribe_depth_once (s : WSState) (sendOk : Bool)
    (exchange symbol : String) (cb : Callback)
    (hdup : ∀ l, mapFind s.subsDepth (getSymbolKey exchange symbol) = some l →
      l.count cb ≤ 1) :
    ∃ l2, mapFind (subscribe_depth s sendOk exchange symbol cb).1.subsDepth
        (getSymbolKey exchange symbol) = some l2 ∧
      l2.count cb = 1 ∧ cb ∈ l2 := by
  rcases hm : mapFind s.subsDepth (getSymbolKey exchange symbol) with _ | l
  · refine ⟨[cb], ?_, by simp, by simp⟩
    simp [subscribe_depth, hm, mapFind_mapInsert_self, mapInsert_mapInsert_self]
  · by_cases hmem : cb ∈ l
    · refine ⟨l, ?_, ?_, hmem⟩
      · rw [subscribe_depth_mem s sendOk exchange symbol cb l hm hmem]
        exact hm
      · exact Nat.le_antisymm (hdup l hm) (List.count_pos_iff.mpr hmem)
    · refine ⟨l ++ [cb], ?_, ?_, by simp⟩
      · simp [subscribe_depth, hm, hmem, mapFind_mapInsert_self]
      · simp [List.count_append, List.count_eq_zero.mpr hmem]

/-- Claim C3: for every kind, subscribing the same callback twice for
the same (exchange, symbol) yields exactly one registration of the
callback for the key; the second call leaves the whole state unchanged
(and sends nothing); every subscribe call returns success. The `hdup`
hypotheses say the starting registry holds no duplicate registration of
this callback, which every reachable registry satisfies. -/
theorem claim_C3 (s : WSState) (ok1 ok2 : Bool) (exchange symbol : String)
    (cb : Callback)
    (hdup1 : ∀ l, mapFind s.subsLtp (getSymbolKey exchange symbol) = some l →
      l.count cb ≤ 1)
    (hdup2 : ∀ l, mapFind s.subsQuote (getSymbolKey exchange symbol) = some l →
      l.count cb ≤ 1)
    (hdup3 : ∀ l, mapFind s.subsDepth (getSymbolKey exchange symbol) = some l →
      l.count cb ≤ 1) :
    ((subscribe_ltp s ok1 exchange symbol cb).2.1 = true ∧
     subscribe_ltp (subscribe_ltp s ok1 exchange symbol cb).1 ok2
         exchange symbol cb =
       ((subscribe_ltp s ok1 exchange symbol cb).1, true, []) ∧
     ∃ l2, mapFind (subscribe_ltp s ok1 exchange symbol cb).1.subsLtp
         (getSymbolKey exchange symbol) = some l2 ∧ l2.count cb = 1) ∧
    ((subscribe_quote s ok1 exchange symbol cb).2.1 = true ∧
     subscribe_quote (subscribe_quote s ok1 exchange symbol cb).1 ok2
         exchange symbol cb =
       ((subscribe_quote s ok1 exchange symbol cb).1, true, []) ∧
     ∃ l2, mapFind (subscribe_quote s ok1 exchange symbol cb).1.subsQuote
         (getSymbolKey exchange symbol) = some l2 ∧ l2.count cb = 1) ∧
    ((subscribe_depth s ok1 exchange symbol cb).2.1 = true ∧
     subscribe_depth (subscribe_depth s ok1 exchange symbol cb).1 ok2
         exchange symbol cb =
       ((subscribe_depth s ok1 exchange symbol cb).1, true, []) ∧
     ∃ l2, mapFind (subscribe_depth s ok1 exchange symbol cb).1.subsDepth
         (getSymbolKey exchange symbol) = some l2 ∧ l2.count cb = 1) := by
  refine ⟨⟨rfl, ?_, ?_⟩, ⟨rfl, ?_, ?_⟩, ⟨rfl, ?_, ?_⟩⟩
  · obtain ⟨l2, hf, _, hmem⟩ := subscribe_ltp_once s ok1 exchange symbol cb hdup1
    exact subscribe_ltp_mem _ ok2 exchange symbol cb l2 hf hmem
  · obtain ⟨l2, hf, hc, _⟩ := subscribe_ltp_once s ok1 exchange symbol cb hdup1
    exact ⟨l2, hf, hc⟩
  · obtain ⟨l2, hf, _, hmem⟩ := subscribe_quote_once s ok1 exchange symbol cb hdup2
    exact subscribe_quote_mem _ ok2 exchange symbol cb l2 hf hmem
  · obtain ⟨l2, hf, hc, _⟩ := subscribe_quote_once s ok1 exchange symbol cb hdup2
    exact ⟨l2, hf, hc⟩
  · obtain ⟨l2, hf, _, hmem⟩ := subscribe_depth_once s ok1 exchange symbol cb hdup3
    exact subscribe_depth_mem _ ok2 exchange symbol cb l2 hf hmem
  · obtain ⟨l2, hf, hc, _⟩ := subscribe_depth_once s ok1 exchange symbol cb hdup3
    exact ⟨l2, hf, hc⟩

theorem claim_C3_witness :
    subscribe_ltp (subscribe_ltp connState true "NSE" "INFY" cbA).1 true
        "NSE" "INFY" cbA =
      ((subscribe_ltp connState true "NSE" "INFY" cbA).1, true, []) ∧
    subscribe_quote (subscribe_quote connState true "NSE" "INFY" cbA).1 true
        "NSE" "INFY" cbA =
      ((subscribe_quote connState true "NSE" "INFY" cbA).1, true, []) ∧
    subscribe_depth (subscribe_depth connState true "NSE" "INFY" cbA).1 true
        "NSE" "INFY" cbA =
      ((subscribe_depth connState true "NSE" "INFY" cbA).1, true, []) := by
  have h := claim_C3 connState true true "NSE" "INFY" cbA
    (by intro l hl; simp [connState, initState] at hl)
    (by intro l hl; simp [connState, initState] at hl)
    (by intro l hl; simp [connState, initState] at hl)
  exact ⟨h.1.2.1, h.2.1.2.1, h.2.2.2.1⟩

/-- Claim C2: when no reconnect attempt succeeds, `_try_reconnect`
starting from a fresh failure (attempt counter 0, flag set, limit 5,
delay 5) makes exactly 5 connect attempts with a 5-time-unit wait
between attempts, then stops with no further retries (the trace ends at
`gaveUp`, no message was resubscribed); and if the should-be-running
flag is unset the loop makes no connect attempt at all. -/
theorem claim_C2 (s : WSState) (oracle : Nat → Bool) (sendOk : Bool)
    (hconn : s.connected = false) (hrun : s.running = true)
    (hatt : s.reconnectAttempts = 0) (hmax : s.maxReconnectAttempts = 5)
    (hdel : s.reconnectDelay = 5)
    (hfail : ∀ n, oracle n = false) :
    (tryReconnect s oracle sendOk).2.1 =
      [ReconnectEvent.sleep 5, ReconnectEvent.connectAttempt 1 false,
       ReconnectEvent.sleep 5, ReconnectEvent.connectAttempt 2 false,
       ReconnectEvent.sleep 5, ReconnectEvent.connectAttempt 3 false,
       ReconnectEvent.sleep 5, ReconnectEvent.connectAttempt 4 false,
       ReconnectEvent.sleep 5, ReconnectEvent.connectAttempt 5 false,
       ReconnectEvent.gaveUp] ∧
    (tryReconnect s oracle sendOk).1.reconnectAttempts = 5 ∧
    (tryReconnect s oracle sendOk).2.2.1 = [] ∧
    (∀ s2 : WSState, s2.running = false →
       (tryReconnect s2 oracle sendOk).2.1 = [ReconnectEvent.gaveUp] ∧
       (tryReconnect s2 oracle sendOk).1 = s2) := by
  have ho : oracle = fun _ => false := funext hfail
  subst ho
  obtain ⟨c, w, r, ra, mx, rd, a, b, cc, d, e, g⟩ := s
  simp only at hconn hrun hatt hmax hdel
  subst hconn hrun hatt hmax hdel
  refine ⟨rfl, rfl, rfl, ?_⟩
  intro s2 hr2
  obtain ⟨c2, w2, r2, ra2, mx2, rd2, a2, b2, cc2, d2, e2, g2⟩ := s2
  simp only at hr2
  subst hr2
  constructor <;> simp [tryReconnect, tryReconnectAux]

theorem claim_C2_witness :
    ({ connState with connected := false } : WSState).running = true ∧
    (tryReconnect { connState with connected := false } (fun _ => false)
        true).2.1 =
      [ReconnectEvent.sleep 5, ReconnectEvent.connectAttempt 1 false,
       ReconnectEvent.sleep 5, ReconnectEvent.connectAttempt 2 false,
       ReconnectEvent.sleep 5, ReconnectEvent.connectAttempt 3 false,
       ReconnectEvent.sleep 5, ReconnectEvent.connectAttempt 4 false,
       ReconnectEvent.sleep 5, ReconnectEvent.connectAttempt 5 false,
       ReconnectEvent.gaveUp] ∧
    (tryReconnect { connState with connected := false } (fun _ => false)
        true).1.reconnectAttempts = 5 := by
  have h := claim_C2 { connState with connected := false } (fun _ => false)
    true rfl rfl rfl rfl rfl (fun _ => rfl)
  exact ⟨rfl, h.1, h.2.1⟩

theorem regOk_insert (m : List (String × List Callback)) (k : String)
    (v : List Callback) (h : regOk m) (hv : v ≠ []) :
    regOk (mapInsert m k v) := by
  intro p hp
  rcases mem_mapInsert m k v p hp with h1 | h1
  · rw [h1]; exact hv
  · exact h p h1

theorem regOk_erase (m : List (String × List Callback)) (k : String)
    (h : regOk m) : regOk (mapErase m k) :=
  fun p hp => h p (mem_mapErase m k p hp)

theorem regOk_nil : regOk [] :=
  fun p hp => absurd hp (List.not_mem_nil p)

/-- Effect of `subscribe_ltp` on the three registries: the other two are
untouched and the LTP one is unchanged or overwrites the key with a
non-empty list. -/
theorem subscribe_ltp_subs (s : WSState) (sendOk : Bool)
    (exchange symbol : String) (cb : Callback) :
    (subscribe_ltp s sendOk exchange symbol cb).1.subsQuote = s.subsQuote ∧
    (subscribe_ltp s sendOk exchange symbol cb).1.subsDepth = s.subsDepth ∧
    ((subscribe_ltp s sendOk exchange symbol cb).1.subsLtp = s.subsLtp ∨
     ∃ l, (subscribe_ltp s sendOk exchange symbol cb).1.subsLtp =
         mapInsert s.subsLtp (getSymbolKey exchange symbol) l ∧ l ≠ []) := by
  rcases hm : mapFind s.subsLtp (getSymbolKey exchange symbol) with _ | l
  · refine ⟨by simp [subscribe_ltp, hm, mapFind_mapInsert_self],
      by simp [subscribe_ltp, hm, mapFind_mapInsert_self],
      Or.inr ⟨[cb], ?_, by simp⟩⟩
    simp [subscribe_ltp, hm, mapFind_mapInsert_self, mapInsert_mapInsert_self]
  · by_cases hmem : cb ∈ l
    · exact ⟨by simp [subscribe_ltp, hm, hmem], by simp [subscribe_ltp, hm, hmem],
        Or.inl (by simp [subscribe_ltp, hm, hmem])⟩
    · refine ⟨by simp [subscribe_ltp, hm, hmem], by simp [subscribe_ltp, hm, hmem],
        Or.inr ⟨l ++ [cb], ?_, by simp⟩⟩
      simp [subscribe_ltp, hm, hmem]

/-- Effect of `unsubscribe_ltp` on the three registries. -/
theorem unsubscribe_ltp_subs (s : WSState) (sendOk : Bool)
    (exchange symbol : String) (cb : Option Callback) :
    (unsubscribe_ltp s sendOk exchange symbol cb).1.subsQuote = s.subsQuote ∧
    (unsubscribe_ltp s sendOk exchange symbol cb).1.subsDepth = s.subsDepth ∧
    ((unsubscribe_ltp s sendOk exchange symbol cb).1.subsLtp = s.subsLtp ∨
     (unsubscribe_ltp s sendOk exchange symbol cb).1.subsLtp =
       mapErase s.subsLtp (getSymbolKey exchange symbol) ∨
     ∃ l, (unsubscribe_ltp s sendOk exchange symbol cb).1.subsLtp =
         mapInsert s.subsLtp (getSymbolKey exchange symbol) l ∧ l ≠ []) := by
  rcases hm : mapFind s.subsLtp (getSymbolKey exchange symbol) with _ | cur
  · exact ⟨by simp [unsubscribe_ltp, hm], by simp [unsubscribe_ltp, hm],
      Or.inl (by simp [unsubscribe_ltp, hm])⟩
  · set cur1 := (match cb with
      | some c => if c ∈ cur then cur.erase c else cur
      | none => ([] : List Callback)) with hcur1
    by_cases he : cur1.isEmpty
    · refine ⟨?_, ?_, Or.inr (Or.inl ?_)⟩ <;>
        simp [unsubscribe_ltp, hm, ← hcur1, he, mapErase_mapInsert_self]
    · refine ⟨?_, ?_, Or.inr (Or.inr ⟨cur1, ?_, ?_⟩)⟩ <;>
        simp [unsubscribe_ltp, hm, ← hcur1, he]
      simpa [List.isEmpty_iff] using he

/-- Effect of `subscribe_quote` on the three registries. -/
theorem subscribe_quote_subs (s : WSState) (sendOk : Bool)
    (exchange symbol : String) (cb : Callback) :
    (subscribe_quote s sendOk exchange symbol cb).1.subsLtp = s.subsLtp ∧
    (subscribe_quote s sendOk exchange symbol cb).1.subsDepth = s.subsDepth ∧
    ((subscribe_quote s sendOk exchange symbol cb).1.subsQuote = s.subsQuote ∨
     ∃ l, (subscribe_quote s sendOk exchange symbol cb).1.subsQuote =
         mapInsert s.subsQuote (getSymbolKey exchange symbol) l ∧ l ≠ []) := by
  rcases hm : mapFind s.subsQuote (getSymbolKey exchange symbol) with _ | l
  · refine ⟨by simp [subscribe_quote, hm, mapFind_mapInsert_self],
      by simp [subscribe_quote, hm, mapFind_mapInsert_self],
      Or.inr ⟨[cb], ?_, by simp⟩⟩
    simp [subscribe_quote, hm, mapFind_mapInsert_self, mapInsert_mapInsert_self]
  · by_cases hmem : cb ∈ l
    · exact ⟨by simp [subscribe_quote, hm, hmem], by simp [subscribe_quote, hm, hmem],
        Or.inl (by simp [subscribe_quote, hm, hmem])⟩
    · refine ⟨by simp [subscribe_quote, hm, hmem], by simp [subscribe_quote, hm, hmem],
        Or.inr ⟨l ++ [cb], ?_, by simp⟩⟩
      simp [subscribe_quote, hm, hmem]

/-- Effect of `unsubscribe_quote` on the three registries. -/
theorem unsubscribe_quote_subs (s : WSState) (sendOk : Bool)
    (exchange symbol : String) (cb : Option Callback) :
    (unsubscribe_quote s sendOk exchange symbol cb).1.subsLtp = s.subsLtp ∧
    (unsubscribe_quote s sendOk exchange symbol cb).1.subsDepth = s.subsDepth ∧
    ((unsubscribe_quote s sendOk exchange symbol cb).1.subsQuote = s.subsQuote ∨
     (unsubscribe_quote s sendOk exchange symbol cb).1.subsQuote =
       mapErase s.subsQuote (getSymbolKey exchange symbol) ∨
     ∃ l, (unsubscribe_quote s sendOk exchange symbol cb).1.subsQuote =
         mapInsert s.subsQuote (getSymbolKey exchange symbol) l ∧ l ≠ []) := by
  rcases hm : mapFind s.subsQuote (getSymbolKey exchange symbol) with _ | cur
  · exact ⟨by simp [unsubscribe_quote, hm], by simp [unsubscribe_quote, hm],
      Or.inl (by simp [unsubscribe_quote, hm])⟩
  · set cur1 := (match cb with
      | some c => if c ∈ cur then cur.erase c else cur
      | none => ([] : List Callback)) with hcur1
    by_cases he : cur1.isEmpty
    · refine ⟨?_, ?_, Or.inr (Or.inl ?_)⟩ <;>
        simp [unsubscribe_quote, hm, ← hcur1, he, mapErase_mapInsert_self]
    · refine ⟨?_, ?_, Or.inr (Or.inr ⟨cur1, ?_, ?_⟩)⟩ <;>
        simp [unsubscribe_quote, hm, ← hcur1, he]
      simpa [List.isEmpty_iff] using he

/-- Effect of `subscribe_depth` on the three registries. -/
theorem subscribe_depth_subs (s : WSState) (sendOk : Bool)
    (exchange symbol : String) (cb : Callback) :
    (subscribe_depth s sendOk exchange symbol cb).1.subsLtp = s.subsLtp ∧
    (subscribe_depth s sendOk exchange symbol cb).1.subsQuote = s.subsQuote ∧
    ((subscribe_depth s sendOk exchange symbol cb).1.subsDepth = s.subsDepth ∨
     ∃ l, (subscribe_depth s sendOk exchange symbol cb).1.subsDepth =
         mapInsert s.subsDepth (getSymbolKey exchange symbol) l ∧ l ≠ []) := by
  rcases hm : mapFind s.subsDepth (getSymbolKey exchange symbol) with _ | l
  · refine ⟨by simp [subscribe_depth, hm, mapFind_mapInsert_self],
      by simp [subscribe_depth, hm, mapFind_mapInsert_self],
      Or.inr ⟨[cb], ?_, by simp⟩⟩
    simp [subscribe_depth, hm, mapFind_mapInsert_self, mapInsert_mapInsert_self]
  · by_cases hmem : cb ∈ l
    · exact ⟨by simp [subscribe_depth, hm, hmem], by simp [subscribe_depth, hm, hmem],
        Or.inl (by simp [subscribe_depth, hm, hmem])⟩
    · refine ⟨by simp [subscribe_depth, hm, hmem], by simp [subscribe_depth, hm, hmem],
        Or.inr ⟨l ++ [cb], ?_, by simp⟩⟩
      simp [subscribe_depth, hm, hmem]

/-- Effect of `unsubscribe_depth` on the three registries. -/
theorem unsubscribe_depth_subs (s : WSState) (sendOk : Bool)
    (exchange symbol : String) (cb : Option Callback) :
    (unsubscribe_depth s sendOk exchange symbol cb).1.subsLtp = s.subsLtp ∧
    (unsubscribe_depth s sendOk exchange symbol cb).1.subsQuote = s.subsQuote ∧
    ((unsubscribe_depth s sendOk exchange symbol cb).1.subsDepth = s.subsDepth ∨
     (unsubscribe_depth s sendOk exchange symbol cb).1.subsDepth =
       mapErase s.subsDepth (getSymbolKey exchange symbol) ∨
     ∃ l, (unsubscribe_depth s sendOk exchange symbol cb).1.subsDepth =
         mapInsert s.subsDepth (getSymbolKey exchange symbol) l ∧ l ≠ []) := by
  rcases hm : mapFind s.subsDepth (getSymbolKey exchange symbol) with _ | cur
  · exact ⟨by simp [unsubscribe_depth, hm], by simp [unsubscribe_depth, hm],
      Or.inl (by simp [unsubscribe_depth, hm])⟩
  · set cur1 := (match cb with
      | some c => if c ∈ cur then cur.erase c else cur
      | none => ([] : List Callback)) with hcur1
    by_cases he : cur1.isEmpty
    · refine ⟨?_, ?_, Or.inr (Or.inl ?_)⟩ <;>
        simp [unsubscribe_depth, hm, ← hcur1, he, mapErase_mapInsert_self]
    · refine ⟨?_, ?_, Or.inr (Or.inr ⟨cur1, ?_, ?_⟩)⟩ <;>
        simp [unsubscribe_depth, hm, ← hcur1, he]
      simpa [List.isEmpty_iff] using he

/-- The dispatcher never touches the registries. -/
theorem processMessage_subs (s : WSState) (f : Frame) :
    (processMessage s f).1.subsLtp = s.subsLtp ∧
    (processMessage s f).1.subsQuote = s.subsQuote ∧
    (processMessage s f).1.subsDepth = s.subsDepth := by
  cases hl : f.ltp <;>
    refine ⟨?_, ?_, ?_⟩ <;>
      simp [processMessage, handleLtp, handleQuote, handleDepth, hl] <;>
        split_ifs <;> rfl

/-- Every operation preserves well-formedness of the registries. -/
theorem stateRegOk_step (s : WSState) (op : Op) (h : stateRegOk s) :
    stateRegOk (step s op) := by
  obtain ⟨h1, h2, h3⟩ := h
  cases op with
  | subLtp e sym cb ok =>
      obtain ⟨hq, hd, hl⟩ := subscribe_ltp_subs s ok e sym cb
      refine ⟨?_, hq ▸ h2, hd ▸ h3⟩
      rcases hl with he | ⟨l, he, hne⟩
      · exact he ▸ h1
      · exact he ▸ regOk_insert _ _ _ h1 hne
  | subQuote e sym cb ok =>
      obtain ⟨hl2, hd, hq⟩ := subscribe_quote_subs s ok e sym cb
      refine ⟨hl2 ▸ h1, ?_, hd ▸ h3⟩
      rcases hq with he | ⟨l, he, hne⟩
      · exact he ▸ h2
      · exact he ▸ regOk_insert _ _ _ h2 hne
  | subDepth e sym cb ok =>
      obtain ⟨hl2, hq, hd⟩ := subscribe_depth_subs s ok e sym cb
      refine ⟨hl2 ▸ h1, hq ▸ h2, ?_⟩
      rcases hd with he | ⟨l, he, hne⟩
      · exact he ▸ h3
      · exact he ▸ regOk_insert _ _ _ h3 hne
  | unsubLtp e sym cb ok =>
      obtain ⟨hq, hd, hl⟩ := unsubscribe_ltp_subs s ok e sym cb
      refine ⟨?_, hq ▸ h2, hd ▸ h3⟩
      rcases hl with he | he | ⟨l, he, hne⟩
      · exact he ▸ h1
      · exact he ▸ regOk_erase _ _ h1
      · exact he ▸ regOk_insert _ _ _ h1 hne
  | unsubQuote e sym cb ok =>
      obtain ⟨hl2, hd, hq⟩ := unsubscribe_quote_subs s ok e sym cb
      refine ⟨hl2 ▸ h1, ?_, hd ▸ h3⟩
      rcases hq with he | he | ⟨l, he, hne⟩
      · exact he ▸ h2
      · exact he ▸ regOk_erase _ _ h2
      · exact he ▸ regOk_insert _ _ _ h2 hne
  | unsubDepth e sym cb ok =>
      obtain ⟨hl2, hq, hd⟩ := unsubscribe_depth_subs s ok e sym cb
      refine ⟨hl2 ▸ h1, hq ▸ h2, ?_⟩
      rcases hd with he | he | ⟨l, he, hne⟩
      · exact he ▸ h3
      · exact he ▸ regOk_erase _ _ h3
      · exact he ▸ regOk_insert _ _ _ h3 hne
  | disc => exact ⟨regOk_nil, regOk_nil, regOk_nil⟩
  | frameOp f =>
      obtain ⟨hl2, hq, hd⟩ := processMessage_subs s f
      exact ⟨hl2 ▸ h1, hq ▸ h2, hd ▸ h3⟩

theorem stateRegOk_foldl (ops : List Op) (s : WSState) (h : stateRegOk s) :
    stateRegOk (ops.foldl step s) := by
  induction ops generalizing s with
  | nil => exact h
  | cons op rest ih => exact ih (step s op) (stateRegOk_step s op h)

/-- Claim C8: in every state reachable from the initial state by any
sequence of subscribe, unsubscribe, disconnect and frame-dispatch
operations, every key present in any kind's registry mapping has a
non-empty callback list. -/
theorem claim_C8 (ops : List Op) : stateRegOk (ops.foldl step initState) :=
  stateRegOk_foldl ops initState ⟨regOk_nil, regOk_nil, regOk_nil⟩

/-- The subscribe message `_resubscribe_all` produces for one held key. -/
def keyMsg (stype k : String) : WireMsg :=
  match splitKey k with
  | some (e, sym) => mkSubscribeMsg stype e sym
  | none => mkSubscribeMsg stype "" ""

theorem keyMsg_stype (stype k : String) : (keyMsg stype k).stype = stype := by
  rcases h : splitKey k with _ | ⟨e, sym⟩ <;> simp [keyMsg, h, mkSubscribeMsg]

/-- A successful two-way split reconstructs the key. -/
theorem splitKey_recover (k : String) (e sym : String)
    (h : splitKey k = some (e, sym)) :
    k.data = e.data ++ ':' :: sym.data := by
  unfold splitKey at h
  rcases hs : splitOnColon k.data with _ | ⟨a, _ | ⟨b, _ | ⟨c, gs⟩⟩⟩ <;>
    rw [hs] at h <;> simp at h
  obtain ⟨h1, h2⟩ := h
  rw [← h1, ← h2]
  exact splitOnColon_pair k.data a b hs

/-- Two keys with the same successful split are equal. -/
theorem splitKey_inj (k1 k2 : String) (e sym : String)
    (h1 : splitKey k1 = some (e, sym)) (h2 : splitKey k2 = some (e, sym)) :
    k1 = k2 := by
  have d1 := splitKey_recover k1 e sym h1
  have d2 := splitKey_recover k2 e sym h2
  obtain ⟨l1⟩ := k1
  obtain ⟨l2⟩ := k2
  simp only at d1 d2
  rw [d1, d2]

/-- Character-level shape of `_get_symbol_key`. -/
theorem getSymbolKey_data (e sym : String) :
    (getSymbolKey e sym).data = e.data ++ ':' :: sym.data := by
  obtain ⟨ed⟩ := e
  obtain ⟨sd⟩ := sym
  simp [getSymbolKey, String.data_append]

/-- Splitting a key built from colon-free parts recovers the parts. -/
theorem splitKey_getSymbolKey (e sym : String) (he : ':' ∉ e.data)
    (hs : ':' ∉ sym.data) :
    splitKey (getSymbolKey e sym) = some (e, sym) := by
  unfold splitKey
  rw [getSymbolKey_data, splitOnColon_append e.data sym.data he hs]

/-- When connected with a transport and every key splits, one kind's
resubscription loop sends exactly the per-key subscribe messages, in
registry order, and does not raise. -/
theorem resubscribeKeys_eq (s : WSState) (sendOk : Bool) (stype : String)
    (keys : List String) (hc : s.connected = true) (hw : s.ws = true)
    (hsplit : ∀ k ∈ keys, (splitKey k).isSome) :
    resubscribeKeys s sendOk stype keys = (keys.map (keyMsg stype), none) := by
  induction keys with
  | nil => rfl
  | cons k rest ih =>
      have hk : (splitKey k).isSome := hsplit k (by simp)
      rcases hsk : splitKey k with _ | ⟨e, sym⟩
      · rw [hsk] at hk
        simp at hk
      · simp [resubscribeKeys, hsk, sendSubscribe, hc, hw, keyMsg,
          ih (fun k' hk' => hsplit k' (List.mem_cons_of_mem _ hk'))]

/-- Each held key contributes exactly one subscribe message to its
kind's resubscription output (keys are dict keys, hence distinct). -/
theorem count_map_keyMsg (stype : String) (keys : List String)
    (k e sym : String) (hk : k ∈ keys) (hsk : splitKey k = some (e, sym))
    (hnd : keys.Nodup) (hall : ∀ k' ∈ keys, (splitKey k').isSome) :
    (keys.map (keyMsg stype)).count (mkSubscribeMsg stype e sym) = 1 := by
  induction keys with
  | nil => simp at hk
  | cons k0 rest ih =>
      have hnd0 : k0 ∉ rest := (List.nodup_cons.mp hnd).1
      have hndr : rest.Nodup := (List.nodup_cons.mp hnd).2
      have hallr : ∀ k' ∈ rest, (splitKey k').isSome :=
        fun k' hk' => hall k' (List.mem_cons_of_mem _ hk')
      rcases List.mem_cons.mp hk with h0 | hr
      · subst h0
        have hhead : keyMsg stype k = mkSubscribeMsg stype e sym := by
          simp [keyMsg, hsk]
        have hzero : (rest.map (keyMsg stype)).count
            (mkSubscribeMsg stype e sym) = 0 := by
          apply List.count_eq_zero.mpr
          intro hmem
          obtain ⟨k', hk', hkm⟩ := List.mem_map.mp hmem
          have hk's : (splitKey k').isSome := hallr k' hk'
          rcases hsk' : splitKey k' with _ | ⟨e', sym'⟩
          · rw [hsk'] at hk's
            simp at hk's
          · rw [keyMsg, hsk'] at hkm
            simp only [mkSubscribeMsg, WireMsg.mk.injEq] at hkm
            obtain ⟨-, -, he, hsy⟩ := hkm
            subst he
            subst hsy
            exact hnd0 (splitKey_inj k' k e' sym' hsk' hsk ▸ hk')
        simp [List.count_cons, hhead, hzero]
      · have hne : keyMsg stype k0 ≠ mkSubscribeMsg stype e sym := by
          intro heq
          have hk0s : (splitKey k0).isSome := hall k0 (by simp)
          rcases hsk0 : splitKey k0 with _ | ⟨e0, sym0⟩
          · rw [hsk0] at hk0s
            simp at hk0s
          · rw [keyMsg, hsk0] at heq
            simp only [mkSubscribeMsg, WireMsg.mk.injEq] at heq
            obtain ⟨-, -, he, hsy⟩ := heq
            subst he
            subst hsy
            exact hnd0 (splitKey_inj k0 k e0 sym0 hsk0 hsk ▸ hr)
        simp [List.count_cons, hne, ih hr hndr hallr]

/-- Messages of a different kind never count for this kind's key. -/
theorem count_map_keyMsg_ne (stype1 stype2 : String) (h : stype1 ≠ stype2)
    (keys : List String) (e sym : String) :
    (keys.map (keyMsg stype2)).count (mkSubscribeMsg stype1 e sym) = 0 := by
  apply List.count_eq_zero.mpr
  intro hmem
  obtain ⟨k', _, hkm⟩ := List.mem_map.mp hmem
  have hst := congrArg WireMsg.stype hkm
  rw [keyMsg_stype] at hst
  exact h (hst.symm.trans rfl)

/-- `_resubscribe_all` over the three kinds, under the same premises. -/
theorem resubscribeAll_eq (s : WSState) (sendOk : Bool)
    (hc : s.connected = true) (hw : s.ws = true)
    (hsplit : ∀ k ∈ s.subsLtp.map Prod.fst ++ s.subsQuote.map Prod.fst ++
        s.subsDepth.map Prod.fst, (splitKey k).isSome) :
    resubscribeAll s sendOk =
      ((s.subsLtp.map Prod.fst).map (keyMsg "ltp") ++
       (s.subsQuote.map Prod.fst).map (keyMsg "quote") ++
       (s.subsDepth.map Prod.fst).map (keyMsg "depth"), none) := by
  have h1 : ∀ k ∈ s.subsLtp.map Prod.fst, (splitKey k).isSome :=
    fun k hk => hsplit k (by simp [hk])
  have h2 : ∀ k ∈ s.subsQuote.map Prod.fst, (splitKey k).isSome :=
    fun k hk => hsplit k (by simp [hk])
  have h3 : ∀ k ∈ s.subsDepth.map Prod.fst, (splitKey k).isSome :=
    fun k hk => hsplit k (by simp [hk])
  simp [resubscribeAll,
    resubscribeKeys_eq s sendOk "ltp" _ hc hw h1,
    resubscribeKeys_eq s sendOk "quote" _ hc hw h2,
    resubscribeKeys_eq s sendOk "depth" _ hc hw h3]

/-- The state `connect` reaches on success starting from `s`. -/
def connectedFrom (s : WSState) : WSState :=
  { s with ws := true, connected := true, reconnectAttempts := 0, running := true }

/-- If the connect attempt `reconnectAttempts + d + 1` is the first to
succeed and is within the attempt limit, `_try_reconnect` ends in the
connected state and its resubscription output is that of
`_resubscribe_all` run there. -/
theorem tryReconnectAux_success (oracle : Nat → Bool) (sendOk : Bool) :
    ∀ (d fuel : Nat) (s : WSState),
      s.connected = false → s.running = true →
      s.reconnectAttempts + d + 1 ≤ s.maxReconnectAttempts →
      oracle (s.reconnectAttempts + d + 1) = true →
      (∀ i, s.reconnectAttempts < i → i ≤ s.reconnectAttempts + d →
        oracle i = false) →
      d + 1 ≤ fuel →
      (tryReconnectAux oracle sendOk fuel s).1 = connectedFrom s ∧
      (tryReconnectAux oracle sendOk fuel s).2.2 =
        resubscribeAll (connectedFrom s) sendOk := by
  intro d
  induction d with
  | zero =>
      intro fuel s hc hr hle hor _ hfuel
      rcases fuel with _ | fuel'
      · omega
      · obtain ⟨c, w, r, ra, mx, rd, a, b, cc, dd, ee, gg⟩ := s
        simp only at hc hr hle hor
        subst hc hr
        have hcond : ra < mx := by omega
        have hor' : oracle (ra + 1) = true := by
          simpa using hor
        simp [tryReconnectAux, hcond, connect, hor', connectedFrom]
  | succ d' ih =>
      intro fuel s hc hr hle hor hfail hfuel
      rcases fuel with _ | fuel'
      · omega
      · obtain ⟨c, w, r, ra, mx, rd, a, b, cc, dd, ee, gg⟩ := s
        simp only at hc hr hle hor hfail
        subst hc hr
        have hcond : ra < mx := by omega
        have hor1 : oracle (ra + 1) = false := hfail (ra + 1) (by omega) (by omega)
        have hor' : oracle (ra + 1 + d' + 1) = true := by
          have he : ra + 1 + d' + 1 = ra + (d' + 1) + 1 := by omega
          rw [he]
          exact hor
        have hrec := ih fuel'
          ⟨false, w, true, ra + 1, mx, rd, a, b, cc, dd, ee, gg⟩
          rfl rfl (by show ra + 1 + d' + 1 ≤ mx; omega)
          (by show oracle (ra + 1 + d' + 1) = true; exact hor')
          (by
            intro i h1 h2
            have h1' : ra + 1 < i := h1
            have h2' : i ≤ ra + 1 + d' := h2
            exact hfail i (by omega) (by omega))
          (by omega)
        rcases hx : tryReconnectAux oracle sendOk fuel'
            ⟨false, w, true, ra + 1, mx, rd, a, b, cc, dd, ee, gg⟩ with
          ⟨sF, evs, rest⟩
        obtain ⟨msgs, err⟩ := rest
        rw [hx] at hrec
        simp only at hrec
        simp [tryReconnectAux, hcond, connect, hor1, hx, hrec.1, hrec.2,
          connectedFrom]

/-- Claim C1 (amended): for every kind and every key held in the
subscription registry at connection loss, if a reconnect attempt
succeeds (the first success being attempt `j ≤ max`), exactly one wire
subscribe request is re-issued for that (kind, key) and no key is lost
or duplicated — for all exchange and symbol strings that contain no
`:` separator. (The unamended claim, quantifying over all non-empty
strings, fails: a `:` inside the symbol makes the key split raise,
see the counterexample.) -/
theorem claim_C1 (s : WSState) (oracle : Nat → Bool) (sendOk : Bool) (j : Nat)
    (hconn : s.connected = false) (hrun : s.running = true)
    (hatt : s.reconnectAttempts = 0)
    (hj1 : 1 ≤ j) (hjm : j ≤ s.maxReconnectAttempts)
    (hjt : oracle j = true)
    (hjf : ∀ i, 1 ≤ i → i < j → oracle i = false)
    (hkeys : ∀ k ∈ s.subsLtp.map Prod.fst ++ s.subsQuote.map Prod.fst ++
        s.subsDepth.map Prod.fst,
      ∃ e sym, ':' ∉ e.data ∧ ':' ∉ sym.data ∧ k = getSymbolKey e sym)
    (hnd1 : (s.subsLtp.map Prod.fst).Nodup)
    (hnd2 : (s.subsQuote.map Prod.fst).Nodup)
    (hnd3 : (s.subsDepth.map Prod.fst).Nodup) :
    (tryReconnect s oracle sendOk).2.2.2 = none ∧
    (∀ k ∈ s.subsLtp.map Prod.fst, ∀ e sym, splitKey k = some (e, sym) →
       (tryReconnect s oracle sendOk).2.2.1.count
         (mkSubscribeMsg "ltp" e sym) = 1) ∧
    (∀ k ∈ s.subsQuote.map Prod.fst, ∀ e sym, splitKey k = some (e, sym) →
       (tryReconnect s oracle sendOk).2.2.1.count
         (mkSubscribeMsg "quote" e sym) = 1) ∧
    (∀ k ∈ s.subsDepth.map Prod.fst, ∀ e sym, splitKey k = some (e, sym) →
       (tryReconnect s oracle sendOk).2.2.1.count
         (mkSubscribeMsg "depth" e sym) = 1) ∧
    (tryReconnect s oracle sendOk).2.2.1.length =
      s.subsLtp.length + s.subsQuote.length + s.subsDepth.length := by
  have hall : ∀ k ∈ s.subsLtp.map Prod.fst ++ s.subsQuote.map Prod.fst ++
      s.subsDepth.map Prod.fst, (splitKey k).isSome := by
    intro k hk
    obtain ⟨e, sym, he, hs2, rfl⟩ := hkeys k hk
    rw [splitKey_getSymbolKey e sym he hs2]
    rfl
  have hall1 : ∀ k ∈ s.subsLtp.map Prod.fst, (splitKey k).isSome :=
    fun k hk => hall k (by simp [hk])
  have hall2 : ∀ k ∈ s.subsQuote.map Prod.fst, (splitKey k).isSome :=
    fun k hk => hall k (by simp [hk])
  have hall3 : ∀ k ∈ s.subsDepth.map Prod.fst, (splitKey k).isSome :=
    fun k hk => hall k (by simp [hk])
  have hsucc := tryReconnectAux_success oracle sendOk (j - 1)
    (s.maxReconnectAttempts + 1) s hconn hrun
    (by omega)
    (by
      rw [hatt]
      have hh : 0 + (j - 1) + 1 = j := by omega
      rw [hh]
      exact hjt)
    (by
      intro i h1 h2
      rw [hatt] at h1 h2
      exact hjf i (by omega) (by omega))
    (by omega)
  have h22 : (tryReconnect s oracle sendOk).2.2 =
      resubscribeAll (connectedFrom s) sendOk := hsucc.2
  rw [resubscribeAll_eq (connectedFrom s) sendOk rfl rfl hall] at h22
  have hfst : (tryReconnect s oracle sendOk).2.2.1 =
      (s.subsLtp.map Prod.fst).map (keyMsg "ltp") ++
      (s.subsQuote.map Prod.fst).map (keyMsg "quote") ++
      (s.subsDepth.map Prod.fst).map (keyMsg "depth") :=
    congrArg Prod.fst h22
  have hsnd : (tryReconnect s oracle sendOk).2.2.2 = none :=
    congrArg Prod.snd h22
  refine ⟨hsnd, ?_, ?_, ?_, ?_⟩
  · intro k hk e sym hsk
    rw [hfst]
    simp only [List.count_append]
    rw [count_map_keyMsg "ltp" _ k e sym hk hsk hnd1 hall1,
      count_map_keyMsg_ne "ltp" "quote" (by decide) _ e sym,
      count_map_keyMsg_ne "ltp" "depth" (by decide) _ e sym]
  · intro k hk e sym hsk
    rw [hfst]
    simp only [List.count_append]
    rw [count_map_keyMsg "quote" _ k e sym hk hsk hnd2 hall2,
      count_map_keyMsg_ne "quote" "ltp" (by decide) _ e sym,
      count_map_keyMsg_ne "quote" "depth" (by decide) _ e sym]
  · intro k hk e sym hsk
    rw [hfst]
    simp only [List.count_append]
    rw [count_map_keyMsg "depth" _ k e sym hk hsk hnd3 hall3,
      count_map_keyMsg_ne "depth" "ltp" (by decide) _ e sym,
      count_map_keyMsg_ne "depth" "quote" (by decide) _ e sym]
  · rw [hfst]
    simp [List.length_append, List.length_map]
    omega

/-- Registry state after subscribing exchange `NSE`, symbol `A:B` (both
non-empty) and then losing the connection. -/
def cexState : WSState :=
  { (subscribe_ltp connState true "NSE" "A:B" cbA).1 with connected := false }

/-- Counterexample to claim C1 as stated: with the non-empty exchange
`NSE` and non-empty symbol `A:B`, the key `NSE:A:B` is held in the
registry at connection loss and the first reconnect attempt succeeds,
yet zero wire subscribe requests are re-issued: `_resubscribe_all`
raises `ValueError` unpacking `key.split(":")` on that key. -/
theorem claim_C1_counterexample :
    mapFind cexState.subsLtp "NSE:A:B" = some [cbA] ∧
    cexState.running = true ∧
    (tryReconnect cexState (fun _ => true) true).1.connected = true ∧
    (tryReconnect cexState (fun _ => true) true).2.2.1 = [] ∧
    (tryReconnect cexState (fun _ => true) true).2.2.2 = some "NSE:A:B" := by
  decide

/-- Registry state after subscribing (LTP, NSE:INFY) and then losing
the connection. -/
def wRecState : WSState :=
  { (subscribe_ltp connState true "NSE" "INFY" cbA).1 with connected := false }

theorem claim_C1_witness :
    (tryReconnect wRecState (fun n => decide (n = 1)) true).2.2.2 = none ∧
    (tryReconnect wRecState (fun n => decide (n = 1)) true).2.2.1.count
      (mkSubscribeMsg "ltp" "NSE" "INFY") = 1 := by
  have h := claim_C1 wRecState (fun n => decide (n = 1)) true 1 rfl rfl rfl
    (le_refl 1) (by decide) rfl
    (by
      intro i h1 h2
      exact absurd (lt_of_le_of_lt h1 h2) (lt_irrefl 1))
    (by
      intro k hk
      have hlist : wRecState.subsLtp.map Prod.fst ++
          wRecState.subsQuote.map Prod.fst ++
          wRecState.subsDepth.map Prod.fst = ["NSE:INFY"] := by decide
      rw [hlist] at hk
      have hk' : k = "NSE:INFY" := by simpa using hk
      subst hk'
      exact ⟨"NSE", "INFY", by decide, by decide, by decide⟩)
    (by decide) (by decide) (by decide)
  exact ⟨h.1, h.2.1 "NSE:INFY" (by decide) "NSE" "INFY" (by decide)⟩

end OpenAlgoWS
